import Mathlib

/-!
Verification of the borrow-lifecycle engine and the privileged role handlers
of the misbahlibrary repository, as a shallow embedding in Lean.

The embedding follows the source:
  * the SQL trigger function update_book_availability and the schema of the
    books and borrow_requests tables (the first SQL migration file);
  * the admin operation updateRequestStatus (components/admin/BorrowRequests.tsx);
  * the student operation requestBorrow (the book-catalog component);
  * the bootstrap-admin and delete-user edge functions, and the role gate of
    the manage-admin-role edge function.

Database tables are modelled as a map from primary key to row (books) and a
row list (borrow_requests, user_roles).  SQL integers are modelled as Int.
-/

namespace Misbah

/-- Values of the borrow_status SQL enum. -/
inductive BorrowStatus where
  | pending
  | approved
  | rejected
  | returned
  deriving DecidableEq, Repr

/-- Row of the books table, restricted to the two inventory columns the
engine reads and writes. -/
structure Book where
  total_count : Int
  available_count : Int
  deriving DecidableEq, Repr

/-- Row of the borrow_requests table.  Dates are opaque day numbers. -/
structure BorrowRequest where
  id : Nat
  student_id : Nat
  book_id : Nat
  status : BorrowStatus
  issue_date : Option Nat
  due_date : Option Nat
  return_date : Option Nat
  remarks : Option String
  deriving DecidableEq, Repr

/-- Database state seen by the borrow-lifecycle engine: the books table keyed
by primary key, and the borrow_requests table as a list of rows. -/
structure LibraryState where
  books : Nat → Option Book
  requests : List BorrowRequest

/-- The SQL statement
UPDATE books SET available_count = available_count - 1
WHERE id = bid AND available_count > 0
from the first branch of the trigger. -/
def sqlDecrementIfAvailable (books : Nat → Option Book) (bid : Nat) :
    Nat → Option Book :=
  fun i =>
    if i = bid then
      (books i).map (fun b =>
        if 0 < b.available_count then
          { b with available_count := b.available_count - 1 }
        else b)
    else books i

/-- The SQL statement
UPDATE books SET available_count = available_count + 1 WHERE id = bid
from the second and third branches of the trigger. -/
def sqlIncrement (books : Nat → Option Book) (bid : Nat) :
    Nat → Option Book :=
  fun i =>
    if i = bid then
      (books i).map (fun b =>
        { b with available_count := b.available_count + 1 })
    else books i

/-- The trigger function update_book_availability, fired AFTER INSERT OR
UPDATE OF status on borrow_requests.  old is the OLD row status (none on
INSERT, where OLD IS NULL), ns the NEW row status, bid the NEW row book_id.
The three IF blocks of the PL/pgSQL body are applied in order. -/
def update_book_availability (old : Option BorrowStatus) (ns : BorrowStatus)
    (bid : Nat) (books : Nat → Option Book) : Nat → Option Book :=
  let b1 :=
    if ns = BorrowStatus.approved ∧
        (old = none ∨ ¬ old = some BorrowStatus.approved) then
      sqlDecrementIfAvailable books bid
    else books
  let b2 :=
    if ns = BorrowStatus.returned ∧ old = some BorrowStatus.approved then
      sqlIncrement b1 bid
    else b1
  if ns = BorrowStatus.rejected ∧ old = some BorrowStatus.approved then
    sqlIncrement b2 bid
  else b2

/-- Net effect of the trigger on the available_count of the book the request
points at, as a scalar function (proved equal to the table-level trigger in
update_book_availability_eq below). -/
def availEffect (old : Option BorrowStatus) (ns : BorrowStatus) (a : Int) :
    Int :=
  let a1 :=
    if ns = BorrowStatus.approved ∧
        (old = none ∨ ¬ old = some BorrowStatus.approved) then
      (if 0 < a then a - 1 else a)
    else a
  let a2 :=
    if ns = BorrowStatus.returned ∧ old = some BorrowStatus.approved then
      a1 + 1
    else a1
  if ns = BorrowStatus.rejected ∧ old = some BorrowStatus.approved then
    a2 + 1
  else a2

/-- SELECT of a borrow_requests row by primary key. -/
def findReq (s : LibraryState) (rid : Nat) : Option BorrowRequest :=
  s.requests.find? (fun r => decide (r.id = rid))

/-- UPDATE borrow_requests SET ... WHERE id = rid, applied row-wise. -/
def applyUpdate (l : List BorrowRequest) (rid : Nat)
    (f : BorrowRequest → BorrowRequest) : List BorrowRequest :=
  l.map (fun r => if r.id = rid then f r else r)

/-- The updateData payload built by updateRequestStatus of
BorrowRequests.tsx, applied to a row: the status is always set; the issue and
due dates only when the target status is approved and both were supplied;
the return date is stamped when the target status is returned; remarks only
when supplied. -/
def updPayload (ns : BorrowStatus) (issueDate dueDate : Option Nat)
    (rem : Option String) (today : Nat) (q : BorrowRequest) : BorrowRequest :=
  { q with
    status := ns
    issue_date :=
      if ns = BorrowStatus.approved ∧ issueDate.isSome ∧ dueDate.isSome then
        issueDate
      else q.issue_date
    due_date :=
      if ns = BorrowStatus.approved ∧ issueDate.isSome ∧ dueDate.isSome then
        dueDate
      else q.due_date
    return_date :=
      if ns = BorrowStatus.returned then some today else q.return_date
    remarks := match rem with | some m => some m | none => q.remarks }

/-- The admin operation updateRequestStatus of BorrowRequests.tsx: performs
the UPDATE of updPayload on the row with the given id, after which the
trigger fires with the OLD and NEW status values.  The TypeScript signature
restricts ns to approved, rejected or returned.  No old-status validation
and no failure path exist in the source. -/
def updateRequestStatus (s : LibraryState) (rid : Nat) (ns : BorrowStatus)
    (issueDate dueDate : Option Nat) (rem : Option String) (today : Nat) :
    LibraryState :=
  match findReq s rid with
  | none => s
  | some r =>
      { books := update_book_availability (some r.status) ns r.book_id s.books
        requests :=
          applyUpdate s.requests rid (updPayload ns issueDate dueDate rem today) }

/-- The student operation requestBorrow of the book-catalog component: INSERT
INTO borrow_requests (student_id, book_id, status) VALUES (..., pending).
The foreign key on book_id makes the insert fail (none) when the book does
not exist; on success the trigger fires with OLD IS NULL. -/
def requestBorrow (s : LibraryState) (student bid rid : Nat) :
    Option LibraryState :=
  match s.books bid with
  | none => none
  | some _ =>
      let r : BorrowRequest :=
        { id := rid, student_id := student, book_id := bid
          status := BorrowStatus.pending
          issue_date := none, due_date := none, return_date := none
          remarks := none }
      some
        { books := update_book_availability none BorrowStatus.pending bid
            s.books
          requests := r :: s.requests }

/-- Number of approved borrow_requests rows for a given book. -/
def approvedCount (s : LibraryState) (bid : Nat) : Nat :=
  s.requests.countP
    (fun r => decide (r.book_id = bid ∧ r.status = BorrowStatus.approved))

/-- One engine call as implemented: a student submitting requestBorrow for an
existing book (with a fresh primary key), or an admin calling
updateRequestStatus (whose TypeScript type restricts the target status to
approved, rejected or returned). -/
inductive Step : LibraryState → LibraryState → Prop where
  | create {s s' : LibraryState} (student bid rid : Nat)
      (hfresh : ∀ r ∈ s.requests, r.id ≠ rid)
      (hok : requestBorrow s student bid rid = some s') : Step s s'
  | update {s : LibraryState} (rid : Nat) (ns : BorrowStatus)
      (d1 d2 : Option Nat) (rem : Option String) (today : Nat)
      (hns : ns ≠ BorrowStatus.pending) :
      Step s (updateRequestStatus s rid ns d1 d2 rem today)

/-- An initial state: every book was inserted by the admin form, which sets
available_count := total_count with total_count at least 1, and no borrow
request exists yet. -/
def initOk (s : LibraryState) : Prop :=
  (∀ bid b, s.books bid = some b →
      1 ≤ b.total_count ∧ b.available_count = b.total_count) ∧
  s.requests = []

/-- States reachable from an initial state by engine calls. -/
inductive Reachable : LibraryState → Prop where
  | init (s : LibraryState) (h : initOk s) : Reachable s
  | step {s s' : LibraryState} (h : Reachable s) (hs : Step s s') :
      Reachable s'

/-- Engine calls restricted to runs in which the decrement guard of the
trigger never fails: whenever a request enters the approved status, the book
it points at exists and has a positive available_count at that moment. -/
inductive StepStrict : LibraryState → LibraryState → Prop where
  | create {s s' : LibraryState} (student bid rid : Nat)
      (hfresh : ∀ r ∈ s.requests, r.id ≠ rid)
      (hok : requestBorrow s student bid rid = some s') : StepStrict s s'
  | updateMiss {s : LibraryState} (rid : Nat) (ns : BorrowStatus)
      (d1 d2 : Option Nat) (rem : Option String) (today : Nat)
      (hmiss : findReq s rid = none) :
      StepStrict s (updateRequestStatus s rid ns d1 d2 rem today)
  | updateHit {s : LibraryState} (rid : Nat) (ns : BorrowStatus)
      (d1 d2 : Option Nat) (rem : Option String) (today : Nat)
      (r : BorrowRequest) (hfind : findReq s rid = some r)
      (hns : ns ≠ BorrowStatus.pending)
      (hguard : ns = BorrowStatus.approved →
        ¬ r.status = BorrowStatus.approved →
        ∃ b, s.books r.book_id = some b ∧ 0 < b.available_count) :
      StepStrict s (updateRequestStatus s rid ns d1 d2 rem today)

/-- States reachable by guard-respecting runs. -/
inductive ReachableStrict : LibraryState → Prop where
  | init (s : LibraryState) (h : initOk s) : ReachableStrict s
  | step {s s' : LibraryState} (h : ReachableStrict s)
      (hs : StepStrict s s') : ReachableStrict s'

/-- A borrow request in a non-terminal (active) status. -/
def isActive (r : BorrowRequest) : Bool :=
  decide (r.status = BorrowStatus.pending ∨ r.status = BorrowStatus.approved)

/-- Whether an active request already exists for a (student, book) pair. -/
def hasActiveRequest (s : LibraryState) (student bid : Nat) : Bool :=
  s.requests.any
    (fun r => decide (r.student_id = student ∧ r.book_id = bid) && isActive r)

/-- Number of active requests for a (student, book) pair. -/
def activeCount (s : LibraryState) (student bid : Nat) : Nat :=
  s.requests.countP
    (fun r => decide (r.student_id = student ∧ r.book_id = bid) && isActive r)

/-- Failure reasons of the createRequest contract. -/
inductive CreateError where
  | DuplicateActiveRequest
  | BookNotFound
  deriving DecidableEq, Repr

/-- Modelled from the spec: the uniqueness constraint over non-terminal
statuses on (student_id, book_id) is not present in the SQL sources of the
repository; only its client-side caller is (requestBorrow maps a duplicate
database error to a duplicate-active-request message).  Following the spec,
createRequest fails with DuplicateActiveRequest when an active (pending or
approved) request exists for the pair, fails with BookNotFound when the book
does not exist, and otherwise inserts the request in the pending status. -/
def createRequest (s : LibraryState) (student bid rid : Nat) :
    Except CreateError LibraryState :=
  if hasActiveRequest s student bid then
    Except.error CreateError.DuplicateActiveRequest
  else
    match requestBorrow s student bid rid with
    | none => Except.error CreateError.BookNotFound
    | some s' => Except.ok s'

/-- Modelled from the spec: engine calls with the uniqueness constraint over
non-terminal statuses enforced by the store on every write.  A creation goes
through createRequest; a status update is accepted only when it does not
produce a second active row for the same (student, book) pair. -/
inductive StepConstrained : LibraryState → LibraryState → Prop where
  | create {s s' : LibraryState} (student bid rid : Nat)
      (hfresh : ∀ r ∈ s.requests, r.id ≠ rid)
      (hok : createRequest s student bid rid = Except.ok s') :
      StepConstrained s s'
  | update {s : LibraryState} (rid : Nat) (ns : BorrowStatus)
      (d1 d2 : Option Nat) (rem : Option String) (today : Nat)
      (r : BorrowRequest) (hfind : findReq s rid = some r)
      (hns : ns ≠ BorrowStatus.pending)
      (hconstraint : ns = BorrowStatus.approved →
        ∀ q ∈ s.requests, q.id ≠ rid → q.student_id = r.student_id →
          q.book_id = r.book_id → isActive q = false) :
      StepConstrained s (updateRequestStatus s rid ns d1 d2 rem today)

/-- States reachable under the spec-modelled uniqueness constraint. -/
inductive ReachableConstrained : LibraryState → Prop where
  | init (s : LibraryState) (h : initOk s) : ReachableConstrained s
  | step {s s' : LibraryState} (h : ReachableConstrained s)
      (hs : StepConstrained s s') : ReachableConstrained s'

/-- Values of the app_role SQL enum. -/
inductive AppRole where
  | admin
  | student
  deriving DecidableEq, Repr

/-- Row of the user_roles table (id and created_at omitted).  The table has
UNIQUE(user_id, role). -/
structure UserRole where
  user_id : Nat
  role : AppRole
  deriving DecidableEq, Repr

/-- SELECT count(*) FROM user_roles WHERE role = admin. -/
def countAdmins (tbl : List UserRole) : Nat :=
  tbl.countP (fun r => decide (r.role = AppRole.admin))

/-- Responses of the bootstrap-admin edge function relevant to its
authorization contract. -/
inductive BootstrapResponse where
  | unauthorized
  | adminsExist
  | success
  deriving DecidableEq, Repr

/-- The bootstrap-admin edge function: requires an authenticated caller;
counts admin role rows; refuses when any exist; otherwise inserts
(caller, admin), treating a duplicate unique-constraint failure of the
insert as success.  The count and the insert are two separate round trips to
the store, so they are given two table snapshots (countTbl at count time,
insertTbl at insert time); a sequential call passes the same table twice. -/
def bootstrapAdmin (auth : Option Nat) (countTbl insertTbl : List UserRole) :
    BootstrapResponse × List UserRole :=
  match auth with
  | none => (BootstrapResponse.unauthorized, insertTbl)
  | some uid =>
      if 0 < countAdmins countTbl then
        (BootstrapResponse.adminsExist, insertTbl)
      else if insertTbl.any
          (fun r => decide (r.user_id = uid ∧ r.role = AppRole.admin)) then
        (BootstrapResponse.success, insertTbl)
      else
        (BootstrapResponse.success,
          insertTbl ++ [{ user_id := uid, role := AppRole.admin }])

/-- Outcome of the admin gate at the top of an edge-function handler. -/
inductive GateResult where
  | unauthorized
  | forbidden
  | allowed
  deriving DecidableEq, Repr

/-- The .single() modifier of the store client: errors unless the result set
has exactly one row. -/
def singleRow {α : Type} (rows : List α) : Option α :=
  match rows with
  | [a] => some a
  | _ => none

/-- The .maybeSingle() modifier of the store client: errors unless the result
set has at most one row. -/
def maybeSingleRow {α : Type} (rows : List α) : Option (Option α) :=
  match rows with
  | [] => some none
  | [a] => some (some a)
  | _ => none

/-- The admin gate of the delete-user edge function: selects the role rows of
the caller filtered by user_id only, with .single(); responds with the 403
Admin access required error when the query errors or the returned role is not
admin. -/
def deleteUserGate (auth : Option Nat) (tbl : List UserRole) : GateResult :=
  match auth with
  | none => GateResult.unauthorized
  | some uid =>
      match singleRow (tbl.filter (fun r => decide (r.user_id = uid))) with
      | some row =>
          if row.role = AppRole.admin then GateResult.allowed
          else GateResult.forbidden
      | none => GateResult.forbidden

/-- The admin gate of the manage-admin-role edge function: selects the role
rows of the caller filtered by user_id and by role = admin, with
.maybeSingle(); responds with the 403 error when the query errors or no row
comes back. -/
def manageAdminGate (auth : Option Nat) (tbl : List UserRole) : GateResult :=
  match auth with
  | none => GateResult.unauthorized
  | some uid =>
      match maybeSingleRow (tbl.filter
          (fun r => decide (r.user_id = uid ∧ r.role = AppRole.admin))) with
      | some (some _) => GateResult.allowed
      | _ => GateResult.forbidden

/-- Primary keys of the borrow_requests rows are pairwise distinct. -/
def idsNodup (s : LibraryState) : Prop :=
  (s.requests.map (fun r => r.id)).Nodup

/-- Every book has a non-negative available_count. -/
def InvNN (s : LibraryState) : Prop :=
  ∀ bid b, s.books bid = some b → 0 ≤ b.available_count

/-- Every book has available_count at least total_count minus its number of
approved requests. -/
def InvGE (s : LibraryState) : Prop :=
  ∀ bid b, s.books bid = some b →
    b.total_count - (approvedCount s bid : Int) ≤ b.available_count

/-- Every book has available_count exactly total_count minus its number of
approved requests. -/
def InvEQ (s : LibraryState) : Prop :=
  ∀ bid b, s.books bid = some b →
    b.available_count = b.total_count - (approvedCount s bid : Int)

/-- Books table holding a single book with one copy, all copies in. -/
def cexBooks : Nat → Option Book :=
  fun i => if i = 0 then some { total_count := 1, available_count := 1 }
    else none

/-- A fresh pending request of a given student for book 0. -/
def cexReq (rid student : Nat) : BorrowRequest :=
  { id := rid, student_id := student, book_id := 0
    status := BorrowStatus.pending
    issue_date := none, due_date := none, return_date := none
    remarks := none }

/-- Initial state of the concrete runs: one book, one copy, no requests. -/
def cexInit : LibraryState := { books := cexBooks, requests := [] }

/-- State after student 10 submits request 1 for book 0. -/
def cexS1 : LibraryState := { books := cexInit.books, requests := [cexReq 1 10] }

/-- State after student 11 also submits request 2 for book 0. -/
def cexS2 : LibraryState :=
  { books := cexS1.books, requests := [cexReq 2 11, cexReq 1 10] }

/-- State after the admin approves request 1 (the copy goes out). -/
def cexS3 : LibraryState :=
  updateRequestStatus cexS2 1 BorrowStatus.approved (some 3) (some 17) none 3

/-- State after the admin approves request 2 with no copy left: the guard of
the trigger fails, the status is still persisted. -/
def cexS4 : LibraryState :=
  updateRequestStatus cexS3 2 BorrowStatus.approved (some 3) (some 17) none 3

/-- State after request 1 is marked returned. -/
def cexS5 : LibraryState :=
  updateRequestStatus cexS4 1 BorrowStatus.returned none none none 9

/-- State after request 2 is also marked returned: both unguarded increments
have landed. -/
def cexS6 : LibraryState :=
  updateRequestStatus cexS5 2 BorrowStatus.returned none none none 9

/-- Books table holding a single book with one copy currently out. -/
def cex8Books : Nat → Option Book :=
  fun i => if i = 0 then some { total_count := 1, available_count := 0 }
    else none

/-- Starting state of the round-trip counterexample: available_count = 0. -/
def cex8S0 : LibraryState := { books := cex8Books, requests := [] }

/-- State after student 10 submits request 1 in the round-trip run. -/
def cex8S1 : LibraryState :=
  { books := cex8S0.books, requests := [cexReq 1 10] }

/-- State holding one already-rejected request, used to replay an illegal
edge. -/
def cexRejState : LibraryState :=
  { books := cexBooks
    requests := [{ cexReq 1 10 with status := BorrowStatus.rejected }] }

/-- State holding one pending request, used to approve without dates. -/
def cexPendState : LibraryState := { books := cexBooks, requests := [cexReq 1 10] }

/-- Books table with five copies of book 0, used against the trigger alone. -/
def cex4Books : Nat → Option Book :=
  fun i => if i = 0 then some { total_count := 5, available_count := 5 }
    else none

/-! Helper lemmas about the trigger. -/

theorem update_book_availability_ne (old : Option BorrowStatus)
    (ns : BorrowStatus) (bid : Nat) (books : Nat → Option Book) (i : Nat)
    (h : i ≠ bid) : update_book_availability old ns bid books i = books i := by
  unfold update_book_availability
  split <;> split <;> split <;>
    simp [sqlDecrementIfAvailable, sqlIncrement, h]

theorem update_book_availability_none (old : Option BorrowStatus)
    (ns : BorrowStatus) (bid : Nat) (books : Nat → Option Book)
    (h : books bid = none) :
    update_book_availability old ns bid books bid = none := by
  unfold update_book_availability
  split <;> split <;> split <;>
    simp [sqlDecrementIfAvailable, sqlIncrement, h]

theorem update_book_availability_book (old : Option BorrowStatus)
    (ns : BorrowStatus) (bid : Nat) (books : Nat → Option Book) (b : Book)
    (hb : books bid = some b) :
    update_book_availability old ns bid books bid
      = some { b with
          available_count := availEffect old ns b.available_count } := by
  rcases old with _ | st
  · cases ns <;>
      simp [update_book_availability, availEffect, sqlDecrementIfAvailable,
        sqlIncrement, hb] <;> split <;> rfl
  · cases st <;> cases ns <;>
      simp [update_book_availability, availEffect, sqlDecrementIfAvailable,
        sqlIncrement, hb] <;> split <;> rfl

theorem availEffect_nonneg (old : Option BorrowStatus) (ns : BorrowStatus)
    (a : Int) (h : 0 ≤ a) : 0 ≤ availEffect old ns a := by
  rcases old with _ | st
  · cases ns <;> simp [availEffect] <;> (try split_ifs) <;> omega
  · cases st <;> cases ns <;> simp [availEffect] <;> (try split_ifs) <;> omega

/-! Helper lemmas about row updates on the borrow_requests table. -/

theorem applyUpdate_eq_of_forall_ne (l : List BorrowRequest) (rid : Nat)
    (f : BorrowRequest → BorrowRequest) :
    (∀ q ∈ l, q.id ≠ rid) → applyUpdate l rid f = l := by
  induction l with
  | nil => intro _; rfl
  | cons a t ih =>
      intro h
      have ha : ¬ a.id = rid := h a (by simp)
      simp only [applyUpdate, List.map_cons, if_neg ha]
      have ht := ih (fun q hq => h q (List.mem_cons_of_mem _ hq))
      simpa [applyUpdate] using ht

theorem map_id_applyUpdate (l : List BorrowRequest) (rid : Nat)
    (f : BorrowRequest → BorrowRequest) (hf : ∀ q, (f q).id = q.id) :
    (applyUpdate l rid f).map (fun r => r.id) = l.map (fun r => r.id) := by
  induction l with
  | nil => rfl
  | cons a t ih =>
      simp only [applyUpdate, List.map_cons] at *
      rw [ih]
      by_cases ha : a.id = rid <;> simp [ha, hf]

theorem find_applyUpdate (l : List BorrowRequest) (rid : Nat)
    (f : BorrowRequest → BorrowRequest) (hf : ∀ q, (f q).id = q.id) :
    (applyUpdate l rid f).find? (fun q => decide (q.id = rid))
      = (l.find? (fun q => decide (q.id = rid))).map
          (fun q => if q.id = rid then f q else q) := by
  induction l with
  | nil => rfl
  | cons a t ih =>
      by_cases ha : a.id = rid
      · simp [applyUpdate, List.find?_cons, ha, hf]
      · simp only [applyUpdate, List.map_cons, if_neg ha]
        rw [List.find?_cons_of_neg _ (by simpa using ha),
          List.find?_cons_of_neg _ (by simpa using ha)]
        simpa [applyUpdate] using ih

theorem countP_applyUpdate (l : List BorrowRequest) (rid : Nat)
    (f : BorrowRequest → BorrowRequest) (p : BorrowRequest → Bool)
    (r : BorrowRequest) :
    (l.map (fun q => q.id)).Nodup → r ∈ l → r.id = rid →
    (applyUpdate l rid f).countP p + (if p r then 1 else 0)
      = l.countP p + (if p (f r) then 1 else 0) := by
  induction l with
  | nil => intro _ hmem; exact absurd hmem (List.not_mem_nil r)
  | cons a t ih =>
      intro hnd hmem hr
      rw [List.map_cons] at hnd
      have hnd1 : a.id ∉ t.map (fun q => q.id) := (List.nodup_cons.mp hnd).1
      have hnd2 : (t.map (fun q => q.id)).Nodup := (List.nodup_cons.mp hnd).2
      rcases List.mem_cons.mp hmem with hra | hrt
      · subst hra
        have htail : applyUpdate t rid f = t := by
          apply applyUpdate_eq_of_forall_ne
          intro q hq hqid
          have hqm : q.id ∈ t.map (fun q => q.id) := List.mem_map_of_mem _ hq
          rw [hqid, ← hr] at hqm
          exact absurd hqm hnd1
        simp only [applyUpdate, List.map_cons, if_pos hr]
        rw [show t.map (fun q => if q.id = rid then f q else q)
              = applyUpdate t rid f from rfl, htail]
        simp only [List.countP_cons]
        omega
      · have ha : ¬ a.id = rid := by
          intro haid
          have hqm : r.id ∈ t.map (fun q => q.id) := List.mem_map_of_mem _ hrt
          rw [hr, ← haid] at hqm
          exact absurd hqm hnd1
        simp only [applyUpdate, List.map_cons, if_neg ha]
        have := ih hnd2 hrt hr
        simp only [List.countP_cons]
        simp only [applyUpdate] at this
        omega

theorem countP_eq_single (l : List BorrowRequest) (p : BorrowRequest → Bool)
    (r : BorrowRequest) :
    (l.map (fun q => q.id)).Nodup → r ∈ l →
    (∀ q ∈ l, q.id ≠ r.id → p q = false) →
    l.countP p = if p r then 1 else 0 := by
  induction l with
  | nil => intro _ hmem; exact absurd hmem (List.not_mem_nil r)
  | cons a t ih =>
      intro hnd hmem hall
      rw [List.map_cons] at hnd
      have hnd1 : a.id ∉ t.map (fun q => q.id) := (List.nodup_cons.mp hnd).1
      have hnd2 : (t.map (fun q => q.id)).Nodup := (List.nodup_cons.mp hnd).2
      rcases List.mem_cons.mp hmem with hra | hrt
      · subst hra
        have htail : t.countP p = 0 := by
          apply List.countP_eq_zero.mpr
          intro q hq
          have hqid : q.id ≠ r.id := by
            intro hqr
            have hqm : q.id ∈ t.map (fun q => q.id) := List.mem_map_of_mem _ hq
            rw [hqr] at hqm
            exact absurd hqm hnd1
          simp [hall q (List.mem_cons_of_mem _ hq) hqid]
        simp [List.countP_cons, htail]
      · have ha : a.id ≠ r.id := by
          intro haid
          have hqm : r.id ∈ t.map (fun q => q.id) := List.mem_map_of_mem _ hrt
          rw [← haid] at hqm
          exact absurd hqm hnd1
        have hpa : p a = false := hall a (by simp) ha
        rw [List.countP_cons, ih hnd2 hrt
          (fun q hq => hall q (List.mem_cons_of_mem _ hq))]
        simp [hpa]

/-! Helper lemmas about the engine operations. -/

theorem findReq_some_id (s : LibraryState) (rid : Nat) (r : BorrowRequest)
    (h : findReq s rid = some r) : r.id = rid := by
  have := List.find?_some h
  simpa using this

theorem findReq_some_mem (s : LibraryState) (rid : Nat) (r : BorrowRequest)
    (h : findReq s rid = some r) : r ∈ s.requests :=
  List.mem_of_find?_eq_some h

theorem updateRequestStatus_miss (s : LibraryState) (rid : Nat)
    (ns : BorrowStatus) (d1 d2 : Option Nat) (rem : Option String)
    (today : Nat) (h : findReq s rid = none) :
    updateRequestStatus s rid ns d1 d2 rem today = s := by
  simp [updateRequestStatus, h]

theorem updateRequestStatus_books (s : LibraryState) (rid : Nat)
    (ns : BorrowStatus) (d1 d2 : Option Nat) (rem : Option String)
    (today : Nat) (r : BorrowRequest) (h : findReq s rid = some r) :
    (updateRequestStatus s rid ns d1 d2 rem today).books
      = update_book_availability (some r.status) ns r.book_id s.books := by
  simp [updateRequestStatus, h]

theorem updateRequestStatus_requests (s : LibraryState) (rid : Nat)
    (ns : BorrowStatus) (d1 d2 : Option Nat) (rem : Option String)
    (today : Nat) (r : BorrowRequest) (h : findReq s rid = some r) :
    (updateRequestStatus s rid ns d1 d2 rem today).requests
      = applyUpdate s.requests rid (updPayload ns d1 d2 rem today) := by
  simp [updateRequestStatus, h]

theorem findReq_updateRequestStatus (s : LibraryState) (rid : Nat)
    (ns : BorrowStatus) (d1 d2 : Option Nat) (rem : Option String)
    (today : Nat) (r : BorrowRequest) (h : findReq s rid = some r) :
    findReq (updateRequestStatus s rid ns d1 d2 rem today) rid
      = some (updPayload ns d1 d2 rem today r) := by
  rw [findReq, updateRequestStatus_requests s rid ns d1 d2 rem today r h,
    find_applyUpdate s.requests rid (updPayload ns d1 d2 rem today)
      (fun q => rfl)]
  rw [show s.requests.find? (fun q => decide (q.id = rid)) = some r from h]
  simp [findReq_some_id s rid r h]

theorem idsNodup_updateRequestStatus (s : LibraryState) (rid : Nat)
    (ns : BorrowStatus) (d1 d2 : Option Nat) (rem : Option String)
    (today : Nat) (hnd : idsNodup s) :
    idsNodup (updateRequestStatus s rid ns d1 d2 rem today) := by
  cases h : findReq s rid with
  | none => rwa [updateRequestStatus_miss s rid ns d1 d2 rem today h]
  | some r =>
      unfold idsNodup
      rw [updateRequestStatus_requests s rid ns d1 d2 rem today r h,
        map_id_applyUpdate s.requests rid (updPayload ns d1 d2 rem today)
          (fun q => rfl)]
      exact hnd

theorem approvedCount_updateRequestStatus (s : LibraryState) (rid : Nat)
    (ns : BorrowStatus) (d1 d2 : Option Nat) (rem : Option String)
    (today : Nat) (r : BorrowRequest) (bid : Nat) (hnd : idsNodup s)
    (h : findReq s rid = some r) :
    approvedCount (updateRequestStatus s rid ns d1 d2 rem today) bid
        + (if r.book_id = bid ∧ r.status = BorrowStatus.approved then 1
          else 0)
      = approvedCount s bid
        + (if r.book_id = bid ∧ ns = BorrowStatus.approved then 1 else 0) := by
  have key := countP_applyUpdate s.requests rid (updPayload ns d1 d2 rem today)
    (fun q => decide (q.book_id = bid ∧ q.status = BorrowStatus.approved)) r
    hnd (findReq_some_mem s rid r h) (findReq_some_id s rid r h)
  unfold approvedCount
  rw [updateRequestStatus_requests s rid ns d1 d2 rem today r h]
  simpa [updPayload] using key

/-! Preservation of the inventory invariants by one engine call. -/

theorem update_book_availability_on_pending (old : Option BorrowStatus)
    (bid : Nat) (books : Nat → Option Book) :
    update_book_availability old BorrowStatus.pending bid books = books := by
  simp [update_book_availability]

theorem requestBorrow_inv (s s' : LibraryState) (student bid rid : Nat)
    (hok : requestBorrow s student bid rid = some s') :
    s'.books = s.books ∧
    s'.requests
      = { id := rid, student_id := student, book_id := bid
          status := BorrowStatus.pending
          issue_date := none, due_date := none, return_date := none
          remarks := none } :: s.requests := by
  unfold requestBorrow at hok
  cases hbb : s.books bid with
  | none => rw [hbb] at hok; exact absurd hok (by simp)
  | some b =>
      rw [hbb] at hok
      simp only [Option.some.injEq] at hok
      rw [← hok]
      exact ⟨by simp [update_book_availability_on_pending], rfl⟩

theorem approvedCount_requestBorrow (s s' : LibraryState)
    (student bid rid : Nat) (hok : requestBorrow s student bid rid = some s')
    (i : Nat) : approvedCount s' i = approvedCount s i := by
  have hreq := (requestBorrow_inv s s' student bid rid hok).2
  unfold approvedCount
  rw [hreq, List.countP_cons]
  simp

theorem idsNodup_requestBorrow (s s' : LibraryState) (student bid rid : Nat)
    (hfresh : ∀ r ∈ s.requests, r.id ≠ rid)
    (hok : requestBorrow s student bid rid = some s') (hnd : idsNodup s) :
    idsNodup s' := by
  have hreq := (requestBorrow_inv s s' student bid rid hok).2
  unfold idsNodup
  rw [hreq, List.map_cons, List.nodup_cons]
  refine ⟨?_, hnd⟩
  intro hmem
  rcases List.mem_map.mp hmem with ⟨q, hq, hqid⟩
  exact hfresh q hq hqid

theorem invNN_updateRequestStatus (s : LibraryState) (rid : Nat)
    (ns : BorrowStatus) (d1 d2 : Option Nat) (rem : Option String)
    (today : Nat) (hnn : InvNN s) :
    InvNN (updateRequestStatus s rid ns d1 d2 rem today) := by
  cases h : findReq s rid with
  | none => rw [updateRequestStatus_miss s rid ns d1 d2 rem today h]; exact hnn
  | some r =>
      intro bid b' hb'
      rw [updateRequestStatus_books s rid ns d1 d2 rem today r h] at hb'
      by_cases hbid : bid = r.book_id
      · subst hbid
        cases hbb : s.books r.book_id with
        | none =>
            rw [update_book_availability_none _ _ _ _ hbb] at hb'
            exact absurd hb' (by simp)
        | some b =>
            rw [update_book_availability_book _ _ _ _ b hbb] at hb'
            rw [← Option.some.inj hb']
            exact availEffect_nonneg _ _ _ (hnn r.book_id b hbb)
      · rw [update_book_availability_ne _ _ _ _ _ hbid] at hb'
        exact hnn bid b' hb'

theorem availEffect_GE (st : BorrowStatus) (ns : BorrowStatus) (a tc : Int)
    (k k' : Nat) (hns : ns ≠ BorrowStatus.pending)
    (hcount : k' + (if st = BorrowStatus.approved then 1 else 0)
      = k + (if ns = BorrowStatus.approved then 1 else 0))
    (h : tc - (k : Int) ≤ a) :
    tc - (k' : Int) ≤ availEffect (some st) ns a := by
  cases st <;> cases ns <;> simp_all [availEffect] <;> (try split_ifs) <;>
    omega

theorem availEffect_EQ (st : BorrowStatus) (ns : BorrowStatus) (a tc : Int)
    (k k' : Nat) (hns : ns ≠ BorrowStatus.pending)
    (hcount : k' + (if st = BorrowStatus.approved then 1 else 0)
      = k + (if ns = BorrowStatus.approved then 1 else 0))
    (hguard : ns = BorrowStatus.approved → st ≠ BorrowStatus.approved → 0 < a)
    (h : a = tc - (k : Int)) :
    availEffect (some st) ns a = tc - (k' : Int) := by
  cases st <;> cases ns <;> simp_all [availEffect] <;> (try split_ifs) <;>
    omega

theorem invGE_updateRequestStatus (s : LibraryState) (rid : Nat)
    (ns : BorrowStatus) (d1 d2 : Option Nat) (rem : Option String)
    (today : Nat) (hns : ns ≠ BorrowStatus.pending) (hnd : idsNodup s)
    (hge : InvGE s) :
    InvGE (updateRequestStatus s rid ns d1 d2 rem today) := by
  cases h : findReq s rid with
  | none => rw [updateRequestStatus_miss s rid ns d1 d2 rem today h]; exact hge
  | some r =>
      intro bid b' hb'
      have hcount := approvedCount_updateRequestStatus s rid ns d1 d2 rem
        today r bid hnd h
      rw [updateRequestStatus_books s rid ns d1 d2 rem today r h] at hb'
      by_cases hbid : bid = r.book_id
      · subst hbid
        cases hbb : s.books r.book_id with
        | none =>
            rw [update_book_availability_none _ _ _ _ hbb] at hb'
            exact absurd hb' (by simp)
        | some b =>
            rw [update_book_availability_book _ _ _ _ b hbb] at hb'
            rw [← Option.some.inj hb']
            have hgeb := hge r.book_id b hbb
            have hc2 : approvedCount
                  (updateRequestStatus s rid ns d1 d2 rem today) r.book_id
                  + (if r.status = BorrowStatus.approved then 1 else 0)
                = approvedCount s r.book_id
                  + (if ns = BorrowStatus.approved then 1 else 0) := by
              simpa using hcount
            exact availEffect_GE r.status ns b.available_count b.total_count
              _ _ hns hc2 hgeb
      · rw [update_book_availability_ne _ _ _ _ _ hbid] at hb'
        have hne : ¬ r.book_id = bid := fun hh => hbid hh.symm
        have hc2 : approvedCount
              (updateRequestStatus s rid ns d1 d2 rem today) bid
            = approvedCount s bid := by
          simpa [hne] using hcount
        rw [hc2]
        exact hge bid b' hb'

theorem invEQ_updateRequestStatus (s : LibraryState) (rid : Nat)
    (ns : BorrowStatus) (d1 d2 : Option Nat) (rem : Option String)
    (today : Nat) (r : BorrowRequest) (h : findReq s rid = some r)
    (hns : ns ≠ BorrowStatus.pending) (hnd : idsNodup s)
    (hguard : ns = BorrowStatus.approved →
      ¬ r.status = BorrowStatus.approved →
      ∃ b, s.books r.book_id = some b ∧ 0 < b.available_count)
    (heq : InvEQ s) :
    InvEQ (updateRequestStatus s rid ns d1 d2 rem today) := by
  intro bid b' hb'
  have hcount := approvedCount_updateRequestStatus s rid ns d1 d2 rem
    today r bid hnd h
  rw [updateRequestStatus_books s rid ns d1 d2 rem today r h] at hb'
  by_cases hbid : bid = r.book_id
  · subst hbid
    cases hbb : s.books r.book_id with
    | none =>
        rw [update_book_availability_none _ _ _ _ hbb] at hb'
        exact absurd hb' (by simp)
    | some b =>
        rw [update_book_availability_book _ _ _ _ b hbb] at hb'
        rw [← Option.some.inj hb']
        have heqb := heq r.book_id b hbb
        have hc2 : approvedCount
              (updateRequestStatus s rid ns d1 d2 rem today) r.book_id
              + (if r.status = BorrowStatus.approved then 1 else 0)
            = approvedCount s r.book_id
              + (if ns = BorrowStatus.approved then 1 else 0) := by
          simpa using hcount
        have hg2 : ns = BorrowStatus.approved →
            r.status ≠ BorrowStatus.approved → 0 < b.available_count := by
          intro h1 h2
          rcases hguard h1 h2 with ⟨b0, hb0, hpos⟩
          rw [hbb] at hb0
          rwa [← Option.some.inj hb0] at hpos
        exact availEffect_EQ r.status ns b.available_count b.total_count
          _ _ hns hc2 hg2 heqb
  · rw [update_book_availability_ne _ _ _ _ _ hbid] at hb'
    have hne : ¬ r.book_id = bid := fun hh => hbid hh.symm
    have hc2 : approvedCount
          (updateRequestStatus s rid ns d1 d2 rem today) bid
        = approvedCount s bid := by
      simpa [hne] using hcount
    rw [hc2]
    exact heq bid b' hb'

theorem initOk_inv (s : LibraryState) (h : initOk s) :
    idsNodup s ∧ InvNN s ∧ InvGE s ∧ InvEQ s := by
  obtain ⟨hb, hr⟩ := h
  have hcount : ∀ bid, approvedCount s bid = 0 := by
    intro bid; unfold approvedCount; rw [hr]; rfl
  refine ⟨?_, ?_, ?_, ?_⟩
  · unfold idsNodup; rw [hr]; simp
  · intro bid b hbb
    have := hb bid b hbb
    omega
  · intro bid b hbb
    have := hb bid b hbb
    rw [hcount bid]
    push_cast
    omega
  · intro bid b hbb
    have := hb bid b hbb
    rw [hcount bid]
    push_cast
    omega

theorem reachable_inv (s : LibraryState) (h : Reachable s) :
    idsNodup s ∧ InvNN s ∧ InvGE s := by
  induction h with
  | init s h =>
      obtain ⟨h1, h2, h3, _⟩ := initOk_inv s h
      exact ⟨h1, h2, h3⟩
  | step h hs ih =>
      obtain ⟨hnd, hnn, hge⟩ := ih
      cases hs with
      | create student bid rid hfresh hok =>
          obtain ⟨hbooks, _⟩ := requestBorrow_inv _ _ student bid rid hok
          refine ⟨idsNodup_requestBorrow _ _ student bid rid hfresh hok hnd,
            ?_, ?_⟩
          · intro bid' b hbb
            rw [hbooks] at hbb
            exact hnn bid' b hbb
          · intro bid' b hbb
            rw [hbooks] at hbb
            rw [approvedCount_requestBorrow _ _ student bid rid hok bid']
            exact hge bid' b hbb
      | update rid ns d1 d2 rem today hns =>
          exact ⟨idsNodup_updateRequestStatus _ rid ns d1 d2 rem today hnd,
            invNN_updateRequestStatus _ rid ns d1 d2 rem today hnn,
            invGE_updateRequestStatus _ rid ns d1 d2 rem today hns hnd hge⟩

theorem reachableStrict_inv (s : LibraryState) (h : ReachableStrict s) :
    idsNodup s ∧ InvNN s ∧ InvEQ s := by
  induction h with
  | init s h =>
      obtain ⟨h1, h2, _, h4⟩ := initOk_inv s h
      exact ⟨h1, h2, h4⟩
  | step h hs ih =>
      obtain ⟨hnd, hnn, heq⟩ := ih
      cases hs with
      | create student bid rid hfresh hok =>
          obtain ⟨hbooks, _⟩ := requestBorrow_inv _ _ student bid rid hok
          refine ⟨idsNodup_requestBorrow _ _ student bid rid hfresh hok hnd,
            ?_, ?_⟩
          · intro bid' b hbb
            rw [hbooks] at hbb
            exact hnn bid' b hbb
          · intro bid' b hbb
            rw [hbooks] at hbb
            rw [approvedCount_requestBorrow _ _ student bid rid hok bid']
            exact heq bid' b hbb
      | updateMiss rid ns d1 d2 rem today hmiss =>
          rw [updateRequestStatus_miss _ rid ns d1 d2 rem today hmiss]
          exact ⟨hnd, hnn, heq⟩
      | updateHit rid ns d1 d2 rem today r hfind hns hguard =>
          exact ⟨idsNodup_updateRequestStatus _ rid ns d1 d2 rem today hnd,
            invNN_updateRequestStatus _ rid ns d1 d2 rem today hnn,
            invEQ_updateRequestStatus _ rid ns d1 d2 rem today r hfind hns hnd
              hguard heq⟩

/-! Helper facts about the concrete runs. -/

theorem initOk_cexInit : initOk cexInit := by
  refine ⟨?_, rfl⟩
  intro bid b hbb
  simp only [cexInit, cexBooks] at hbb
  by_cases hb0 : bid = 0
  · rw [if_pos hb0] at hbb
    rw [← Option.some.inj hbb]
    exact ⟨by norm_num, by norm_num⟩
  · rw [if_neg hb0] at hbb
    exact absurd hbb (by simp)

theorem reachable_cexS4 : Reachable cexS4 := by
  have h0 : Reachable cexInit := Reachable.init cexInit initOk_cexInit
  have h1 : Reachable cexS1 :=
    h0.step (@Step.create cexInit cexS1 10 0 1 (by decide) rfl)
  have h2 : Reachable cexS2 :=
    h1.step (@Step.create cexS1 cexS2 11 0 2 (by decide) rfl)
  have h3 : Reachable cexS3 := h2.step
    (Step.update 1 BorrowStatus.approved (some 3) (some 17) none 3 (by decide))
  exact h3.step
    (Step.update 2 BorrowStatus.approved (some 3) (some 17) none 3 (by decide))

theorem reachable_cexS6 : Reachable cexS6 := by
  have h5 : Reachable cexS5 := reachable_cexS4.step
    (Step.update 1 BorrowStatus.returned none none none 9 (by decide))
  exact h5.step
    (Step.update 2 BorrowStatus.returned none none none 9 (by decide))

theorem reachableStrict_cexS3 : ReachableStrict cexS3 := by
  have h0 : ReachableStrict cexInit := ReachableStrict.init cexInit initOk_cexInit
  have h1 : ReachableStrict cexS1 := h0.step
    (@StepStrict.create cexInit cexS1 10 0 1 (by decide) rfl)
  have h2 : ReachableStrict cexS2 := h1.step
    (@StepStrict.create cexS1 cexS2 11 0 2 (by decide) rfl)
  exact h2.step
    (StepStrict.updateHit 1 BorrowStatus.approved (some 3) (some 17) none 3
      (cexReq 1 10) (by decide) (by decide)
      (fun _ _ => ⟨{ total_count := 1, available_count := 1 }, by decide,
        by norm_num⟩))

theorem createRequest_ok_inv (s : LibraryState) (student bid rid : Nat)
    (s' : LibraryState) (h : createRequest s student bid rid = Except.ok s') :
    hasActiveRequest s student bid = false ∧
    requestBorrow s student bid rid = some s' := by
  unfold createRequest at h
  by_cases hdup : hasActiveRequest s student bid
  · rw [if_pos hdup] at h
    exact absurd h (by simp)
  · rw [if_neg hdup] at h
    cases hrb : requestBorrow s student bid rid with
    | none => rw [hrb] at h; exact absurd h (by simp)
    | some s2 =>
        rw [hrb] at h
        have h2 : s2 = s' := by simpa using h
        subst h2
        exact ⟨Bool.eq_false_iff.mpr hdup, rfl⟩

theorem reachableConstrained_inv (s : LibraryState)
    (h : ReachableConstrained s) :
    idsNodup s ∧ ∀ student bid, activeCount s student bid ≤ 1 := by
  induction h with
  | init s h =>
      obtain ⟨_, hr⟩ := h
      constructor
      · unfold idsNodup; rw [hr]; simp
      · intro student bid
        unfold activeCount; rw [hr]; simp
  | step h hs ih =>
      rename_i sA sB
      obtain ⟨hnd, hcnt⟩ := ih
      cases hs with
      | create student bid rid hfresh hok =>
          obtain ⟨hdup, hrb⟩ := createRequest_ok_inv _ student bid rid _ hok
          obtain ⟨hbooks, hreq⟩ := requestBorrow_inv _ _ student bid rid hrb
          refine ⟨idsNodup_requestBorrow _ _ student bid rid hfresh hrb hnd,
            ?_⟩
          intro st2 bid2
          have hc := hcnt st2 bid2
          unfold activeCount at hc ⊢
          rw [hreq, List.countP_cons]
          by_cases hpair : student = st2 ∧ bid = bid2
          · obtain ⟨h1, h2⟩ := hpair
            subst h1; subst h2
            have hzero : sA.requests.countP
                (fun r => decide (r.student_id = student ∧ r.book_id = bid)
                  && isActive r) = 0 := by
              apply List.countP_eq_zero.mpr
              intro q hq
              unfold hasActiveRequest at hdup
              rw [List.any_eq_false] at hdup
              exact hdup q hq
            rw [hzero]
            simp [isActive]
          · have hdec : decide
                ((student : Nat) = st2 ∧ (bid : Nat) = bid2) = false := by
              simpa using hpair
            simpa [hdec] using hc
      | update rid ns d1 d2 rem today r hfind hns hconstraint =>
          refine ⟨idsNodup_updateRequestStatus _ rid ns d1 d2 rem today hnd,
            ?_⟩
          intro st2 bid2
          have hc := hcnt st2 bid2
          have hkey := countP_applyUpdate sA.requests rid
            (updPayload ns d1 d2 rem today)
            (fun q => decide (q.student_id = st2 ∧ q.book_id = bid2)
              && isActive q) r hnd
            (findReq_some_mem _ rid r hfind) (findReq_some_id _ rid r hfind)
          simp only [] at hkey
          have e0 : (if (false = true) then (1 : Nat) else 0) = 0 := rfl
          have e1 : (if (true = true) then (1 : Nat) else 0) = 1 := rfl
          have e2 : (if True then (1 : Nat) else 0) = 1 := rfl
          have e3 : (if False then (1 : Nat) else 0) = 0 := rfl
          have hreqs := updateRequestStatus_requests _ rid ns d1 d2 rem today
            r hfind
          unfold activeCount at hc ⊢
          rw [hreqs]
          by_cases hact : isActive (updPayload ns d1 d2 rem today r) = true
          · by_cases hpair : r.student_id = st2 ∧ r.book_id = bid2
            · have hns2 : ns = BorrowStatus.approved := by
                cases ns with
                | pending => exact absurd rfl hns
                | approved => rfl
                | rejected => simp [isActive, updPayload] at hact
                | returned => simp [isActive, updPayload] at hact
              have hsingle : sA.requests.countP
                  (fun q => decide (q.student_id = st2 ∧ q.book_id = bid2)
                    && isActive q)
                  = if decide (r.student_id = st2 ∧ r.book_id = bid2)
                      && isActive r then 1 else 0 := by
                apply countP_eq_single sA.requests _ r hnd
                  (findReq_some_mem _ rid r hfind)
                intro q hq hqid
                by_cases hqpair : q.student_id = st2 ∧ q.book_id = bid2
                · have hq2 : isActive q = false := by
                    apply hconstraint hns2 q hq
                    · rw [findReq_some_id _ rid r hfind] at hqid
                      exact hqid
                    · rw [hqpair.1, hpair.1]
                    · rw [hqpair.2, hpair.2]
                  simp [hq2]
                · have hd : decide (q.student_id = st2 ∧ q.book_id = bid2)
                      = false := by simpa using hqpair
                  simp [hd]
              simp only [hsingle] at hkey
              have hfr : (decide
                    ((updPayload ns d1 d2 rem today r).student_id = st2
                      ∧ (updPayload ns d1 d2 rem today r).book_id = bid2)
                  && isActive (updPayload ns d1 d2 rem today r)) = true := by
                rw [hact]
                simp [updPayload, hpair.1, hpair.2]
              simp only [hfr] at hkey
              cases hpr : (decide (r.student_id = st2 ∧ r.book_id = bid2)
                  && isActive r) <;>
                simp only [hpr, e0, e1, e2, e3] at hkey <;> omega
            · have hfr : (decide
                    ((updPayload ns d1 d2 rem today r).student_id = st2
                      ∧ (updPayload ns d1 d2 rem today r).book_id = bid2)
                  && isActive (updPayload ns d1 d2 rem today r)) = false := by
                have hd : decide
                    ((updPayload ns d1 d2 rem today r).student_id = st2
                      ∧ (updPayload ns d1 d2 rem today r).book_id = bid2)
                    = false := by
                  simpa [updPayload] using hpair
                rw [hd]
                simp
              have hr2 : (decide (r.student_id = st2 ∧ r.book_id = bid2)
                  && isActive r) = false := by
                have hd : decide (r.student_id = st2 ∧ r.book_id = bid2)
                    = false := by simpa using hpair
                rw [hd]
                simp
              simp only [hfr, hr2, e0, e1, e2, e3] at hkey
              omega
          · simp only [Bool.not_eq_true] at hact
            have hfr : (decide
                  ((updPayload ns d1 d2 rem today r).student_id = st2
                    ∧ (updPayload ns d1 d2 rem today r).book_id = bid2)
                && isActive (updPayload ns d1 d2 rem today r)) = false := by
              rw [hact]
              simp
            simp only [hfr] at hkey
            cases hpr : (decide (r.student_id = st2 ∧ r.book_id = bid2)
                && isActive r) <;>
              simp only [hpr, e0, e1, e2, e3] at hkey <;> omega

/-! Helper lemmas about the role-handler models. -/

theorem singleRow_eq_none_of_two {α : Type} (l : List α) (a b : α)
    (ha : a ∈ l) (hb : b ∈ l) (hab : a ≠ b) : singleRow l = none := by
  cases l with
  | nil => exact absurd ha (List.not_mem_nil a)
  | cons x t =>
      cases t with
      | nil =>
          simp only [List.mem_singleton] at ha hb
          exact absurd (ha.trans hb.symm) hab
      | cons y t2 => rfl

theorem length_le_one_of_nodup_all_eq {α : Type} (l : List α) (c : α)
    (hnd : l.Nodup) (hall : ∀ x ∈ l, x = c) : l.length ≤ 1 := by
  cases l with
  | nil => simp
  | cons x t =>
      cases t with
      | nil => simp
      | cons y t2 =>
          have hx := hall x (by simp)
          have hy := hall y (by simp)
          rw [List.nodup_cons] at hnd
          have hxy : x ∈ y :: t2 := by
            rw [hx, hy]
            exact List.mem_cons_self c t2
          exact absurd hxy hnd.1

theorem countAdmins_zero_any_false (tbl : List UserRole) (uid : Nat)
    (h : countAdmins tbl = 0) :
    tbl.any (fun r => decide (r.user_id = uid ∧ r.role = AppRole.admin))
      = false := by
  rw [List.any_eq_false]
  intro r hr
  have hz := List.countP_eq_zero.mp h r hr
  simp only [decide_eq_true_eq] at hz ⊢
  intro hcon
  exact hz hcon.2

/-! Theorems settling the claims. -/

/-- Claim C3: on the pending to approved transition, the available_count of
the associated book is decremented by exactly 1 if and only if it was
positive beforehand; when it is zero the update is still applied (the
persisted status becomes approved) while the count is left unchanged, and
the count never becomes negative. -/
theorem C3_approve_decrement_guarded (s : LibraryState) (rid : Nat)
    (d1 d2 : Option Nat) (rem : Option String) (today : Nat)
    (r : BorrowRequest) (b : Book) (hfind : findReq s rid = some r)
    (hst : r.status = BorrowStatus.pending)
    (hb : s.books r.book_id = some b) (hnn : 0 ≤ b.available_count) :
    ((findReq (updateRequestStatus s rid BorrowStatus.approved d1 d2 rem
        today) rid).map (fun q => q.status) = some BorrowStatus.approved)
    ∧ (updateRequestStatus s rid BorrowStatus.approved d1 d2 rem today).books
        r.book_id
      = some { b with available_count :=
          if 0 < b.available_count then b.available_count - 1
          else b.available_count }
    ∧ 0 ≤ (if 0 < b.available_count then b.available_count - 1
        else b.available_count) := by
  refine ⟨?_, ?_, ?_⟩
  · rw [findReq_updateRequestStatus s rid _ d1 d2 rem today r hfind]
    simp [updPayload]
  · rw [updateRequestStatus_books s rid _ d1 d2 rem today r hfind,
      update_book_availability_book _ _ _ _ b hb]
    have hx : availEffect (some r.status) BorrowStatus.approved
        b.available_count
        = if 0 < b.available_count then b.available_count - 1
          else b.available_count := by
      rw [hst]
      simp [availEffect]
    rw [hx]
  · split_ifs <;> omega

/-- Witness for C3 at a concrete state: one pending request for a book with
one available copy. -/
theorem C3_approve_decrement_guarded_witness :
    ((findReq (updateRequestStatus cexPendState 1 BorrowStatus.approved
        (some 2) (some 16) none 2) 1).map (fun q => q.status)
      = some BorrowStatus.approved)
    ∧ (updateRequestStatus cexPendState 1 BorrowStatus.approved (some 2)
        (some 16) none 2).books 0
      = some { total_count := 1, available_count :=
          if 0 < (1 : Int) then (1 : Int) - 1 else (1 : Int) }
    ∧ 0 ≤ (if 0 < (1 : Int) then (1 : Int) - 1 else (1 : Int)) :=
  C3_approve_decrement_guarded cexPendState 1 (some 2) (some 16) none 2
    (cexReq 1 10) { total_count := 1, available_count := 1 } (by decide) rfl
    (by decide) (by decide)

/-- Claim C4 counterexample: the transition rejected to approved is not an
inventory no-op: the trigger decrements available_count from 5 to 4, because
its first branch is keyed on the new status being approved and the old
status differing from approved, not on the old status being pending. -/
theorem C4_cex_rejected_to_approved_decrements :
    update_book_availability (some BorrowStatus.rejected)
        BorrowStatus.approved 0 cex4Books 0
      = some { total_count := 5, available_count := 4 }
    ∧ cex4Books 0 = some { total_count := 5, available_count := 5 } := by
  constructor <;> decide

/-- Claim C4 amended: the decrement fires on every transition into approved
from any non-approved old status (including rejected to approved, returned
to approved, and an INSERT arriving directly as approved), guarded at zero;
the increment fires exactly on approved to returned and approved to
rejected; every other transition leaves the count unchanged, and books other
than the one referenced by the request are never touched. -/
theorem C4_amended_trigger_characterization (old : Option BorrowStatus)
    (ns : BorrowStatus) (books : Nat → Option Book) (bid : Nat) (b : Book)
    (hb : books bid = some b) :
    update_book_availability old ns bid books bid
      = some { b with available_count :=
          if ns = BorrowStatus.approved ∧ ¬ old = some BorrowStatus.approved
          then (if 0 < b.available_count then b.available_count - 1
            else b.available_count)
          else if (ns = BorrowStatus.returned ∨ ns = BorrowStatus.rejected)
              ∧ old = some BorrowStatus.approved
            then b.available_count + 1
            else b.available_count }
    ∧ ∀ i, ¬ i = bid → update_book_availability old ns bid books i
        = books i := by
  refine ⟨?_, fun i hi => update_book_availability_ne old ns bid books i hi⟩
  rw [update_book_availability_book old ns bid books b hb]
  have hx : availEffect old ns b.available_count
      = if ns = BorrowStatus.approved ∧ ¬ old = some BorrowStatus.approved
        then (if 0 < b.available_count then b.available_count - 1
          else b.available_count)
        else if (ns = BorrowStatus.returned ∨ ns = BorrowStatus.rejected)
            ∧ old = some BorrowStatus.approved
          then b.available_count + 1
          else b.available_count := by
    rcases old with _ | st
    · cases ns <;> simp [availEffect]
    · cases st <;> cases ns <;> simp [availEffect]
  rw [hx]

/-- Witness for the C4 amended characterization at pending to approved. -/
theorem C4_amended_trigger_characterization_witness :
    update_book_availability (some BorrowStatus.pending)
        BorrowStatus.approved 0 cex4Books 0
      = some { total_count := 5, available_count :=
          if BorrowStatus.approved = BorrowStatus.approved
              ∧ ¬ (some BorrowStatus.pending)
                  = some BorrowStatus.approved
          then (if 0 < (5 : Int) then (5 : Int) - 1 else (5 : Int))
          else if (BorrowStatus.approved = BorrowStatus.returned
              ∨ BorrowStatus.approved = BorrowStatus.rejected)
              ∧ (some BorrowStatus.pending) = some BorrowStatus.approved
            then (5 : Int) + 1
            else (5 : Int) } :=
  (C4_amended_trigger_characterization (some BorrowStatus.pending)
    BorrowStatus.approved cex4Books 0
    { total_count := 5, available_count := 5 } (by decide)).1

/-- Claim C5 counterexample: applying the transition operation to a request
whose status is already rejected with target approved is not refused with
any error: the new status is persisted and the trigger even decrements the
inventory; no InvalidTransition failure exists in the code. -/
theorem C5_cex_illegal_transition_applied :
    ((findReq (updateRequestStatus cexRejState 1 BorrowStatus.approved
        (some 2) (some 16) none 2) 1).map (fun q => q.status)
      = some BorrowStatus.approved)
    ∧ (updateRequestStatus cexRejState 1 BorrowStatus.approved (some 2)
        (some 16) none 2).books 0
      = some { total_count := 1, available_count := 0 } := by
  constructor <;> decide

/-- Claim C5 amended: the transition operation performs no old-status
validation and has no failure path: for every stored request and every
target status of its TypeScript type (approved, rejected or returned), the
new status is persisted unconditionally; the legal edges are enforced only
by which buttons the admin interface renders. -/
theorem C5_amended_no_transition_validation (s : LibraryState) (rid : Nat)
    (ns : BorrowStatus) (d1 d2 : Option Nat) (rem : Option String)
    (today : Nat) (r : BorrowRequest) (hns : ns ≠ BorrowStatus.pending)
    (hfind : findReq s rid = some r) :
    (findReq (updateRequestStatus s rid ns d1 d2 rem today) rid).map
        (fun q => q.status) = some ns := by
  rw [findReq_updateRequestStatus s rid ns d1 d2 rem today r hfind]
  simp [updPayload]

/-- Witness for C5 amended: replaying returned on an already rejected
request persists the returned status. -/
theorem C5_amended_no_transition_validation_witness :
    (findReq (updateRequestStatus cexRejState 1 BorrowStatus.returned none
        none none 4) 1).map (fun q => q.status)
      = some BorrowStatus.returned :=
  C5_amended_no_transition_validation cexRejState 1 BorrowStatus.returned
    none none none 4 { cexReq 1 10 with status := BorrowStatus.rejected }
    (by decide) (by decide)

/-- Claim C6 counterexample: approving a pending request while the issue
date is absent is not refused: the persisted row has status approved with
both dates still null; no MissingDates failure exists in the code. -/
theorem C6_cex_approved_without_dates :
    (findReq (updateRequestStatus cexPendState 1 BorrowStatus.approved none
        (some 16) none 2) 1).map
        (fun q => (q.status, q.issue_date, q.due_date))
      = some (BorrowStatus.approved, none, none) := by
  decide

/-- Claim C6 amended: on the approve edge the operation sets the issue and
due dates only when both are supplied; when either is absent the status
update to approved is still persisted with the previous dates left in
place, and no MissingDates failure exists. -/
theorem C6_amended_dates_optional (s : LibraryState) (rid : Nat)
    (d1 d2 : Option Nat) (rem : Option String) (today : Nat)
    (r : BorrowRequest) (hfind : findReq s rid = some r) :
    (findReq (updateRequestStatus s rid BorrowStatus.approved d1 d2 rem
        today) rid).map (fun q => (q.status, q.issue_date, q.due_date))
      = some (BorrowStatus.approved,
          if d1.isSome ∧ d2.isSome then d1 else r.issue_date,
          if d1.isSome ∧ d2.isSome then d2 else r.due_date) := by
  rw [findReq_updateRequestStatus s rid _ d1 d2 rem today r hfind]
  simp [updPayload]

/-- Witness for C6 amended: approving with both dates supplied stores
them. -/
theorem C6_amended_dates_optional_witness :
    (findReq (updateRequestStatus cexPendState 1 BorrowStatus.approved
        (some 2) (some 16) none 2) 1).map
        (fun q => (q.status, q.issue_date, q.due_date))
      = some (BorrowStatus.approved,
          if (some 2 : Option Nat).isSome ∧ (some 16 : Option Nat).isSome
            then some 2 else none,
          if (some 2 : Option Nat).isSome ∧ (some 16 : Option Nat).isSome
            then some 16 else none) :=
  C6_amended_dates_optional cexPendState 1 (some 2) (some 16) none 2
    (cexReq 1 10) (by decide)

/-- Claim C1 counterexample: a reachable run (one book with one copy, two
requests, both approved; the second approval fires the decrement guard at
zero) ends in a state where available_count is 0 while total_count minus the
number of approved requests is minus one, so the exact invariant fails. -/
theorem C1_cex_invariant_fails :
    Reachable cexS4
    ∧ cexS4.books 0 = some { total_count := 1, available_count := 0 }
    ∧ approvedCount cexS4 0 = 2
    ∧ ¬ InvEQ cexS4 := by
  refine ⟨reachable_cexS4, by decide, by decide, ?_⟩
  intro hinv
  have h := hinv 0 { total_count := 1, available_count := 0 } (by decide)
  have hc : approvedCount cexS4 0 = 2 := by decide
  rw [hc] at h
  norm_num at h

/-- Claim C1 amended: at every reachable state every book satisfies
available_count at least total_count minus the number of approved requests;
the exact equality holds on every run in which no request enters the
approved status while the book has no available copy (the decrement guard
never fails). -/
theorem C1_amended_inventory_invariant (s : LibraryState) :
    (Reachable s → InvGE s) ∧ (ReachableStrict s → InvEQ s) :=
  ⟨fun h => (reachable_inv s h).2.2, fun h => (reachableStrict_inv s h).2.2⟩

/-- Witness for C1 amended: after one guarded approval of the single copy
the equality holds with available_count 0 and one approved request. -/
theorem C1_amended_inventory_invariant_witness :
    cexS3.books 0 = some { total_count := 1, available_count := 0 }
    ∧ ({ total_count := 1, available_count := 0 } : Book).available_count
      = ({ total_count := 1, available_count := 0 } : Book).total_count
        - (approvedCount cexS3 0 : Int) :=
  ⟨by decide,
    (C1_amended_inventory_invariant cexS3).2 reachableStrict_cexS3 0
      { total_count := 1, available_count := 0 } (by decide)⟩

/-- Claim C2 counterexample: a reachable run (approve two requests on a
one-copy book, the second with the guard failing at zero, then return both;
each return increments unconditionally) ends with available_count 2 above
total_count 1, so the upper bound fails. -/
theorem C2_cex_upper_bound_fails :
    Reachable cexS6
    ∧ cexS6.books 0 = some { total_count := 1, available_count := 2 }
    ∧ ¬ (∀ bid b, cexS6.books bid = some b →
        b.available_count ≤ b.total_count) := by
  refine ⟨reachable_cexS6, by decide, ?_⟩
  intro h
  have := h 0 { total_count := 1, available_count := 2 } (by decide)
  norm_num at this

/-- Claim C2 amended: at every reachable state every book has a
non-negative available_count (the decrement is guarded), but the upper
bound by total_count is not enforced: the increments on approved to
returned and approved to rejected are unguarded and can push the count
above total_count after a failed-guard approval. -/
theorem C2_amended_nonnegative (s : LibraryState) (h : Reachable s) :
    InvNN s :=
  (reachable_inv s h).2.1

/-- Witness for C2 amended at a concrete reachable state. -/
theorem C2_amended_nonnegative_witness :
    cexS6.books 0 = some { total_count := 1, available_count := 2 }
    ∧ 0 ≤ ({ total_count := 1, available_count := 2 } : Book).available_count :=
  ⟨by decide,
    C2_amended_nonnegative cexS6 reachable_cexS6 0
      { total_count := 1, available_count := 2 } (by decide)⟩

/-- Claim C7: under the spec-modelled uniqueness constraint over
non-terminal statuses, every reachable state has at most one active
(pending or approved) request per (student, book) pair, and createRequest
fails with DuplicateActiveRequest whenever an active request already exists
for the pair. -/
theorem C7_active_uniqueness (s : LibraryState)
    (h : ReachableConstrained s) :
    (∀ student bid, activeCount s student bid ≤ 1)
    ∧ (∀ student bid rid, hasActiveRequest s student bid = true →
        createRequest s student bid rid
          = Except.error CreateError.DuplicateActiveRequest) := by
  refine ⟨(reachableConstrained_inv s h).2, ?_⟩
  intro student bid rid hdup
  unfold createRequest
  rw [if_pos hdup]

/-- Witness for C7 at a state holding one pending request. -/
theorem C7_active_uniqueness_witness :
    activeCount cexS1 10 0 ≤ 1
    ∧ createRequest cexS1 10 0 5
      = Except.error CreateError.DuplicateActiveRequest := by
  have hr : ReachableConstrained cexS1 :=
    (ReachableConstrained.init cexInit initOk_cexInit).step
      (@StepConstrained.create cexInit cexS1 10 0 1 (by decide) rfl)
  exact ⟨(C7_active_uniqueness cexS1 hr).1 10 0,
    (C7_active_uniqueness cexS1 hr).2 10 0 5 (by decide)⟩

/-- Claim C8 counterexample: starting from a book with total_count 1 and
available_count 0, the sequence create, approve, return leaves
available_count at 1, not at its initial value 0: the approval hits the
zero guard (no decrement) while the return increments unconditionally. -/
theorem C8_cex_round_trip_at_zero :
    cex8S0.books 0 = some { total_count := 1, available_count := 0 }
    ∧ requestBorrow cex8S0 10 0 1 = some cex8S1
    ∧ (updateRequestStatus (updateRequestStatus cex8S1 1
        BorrowStatus.approved (some 2) (some 16) none 2) 1
        BorrowStatus.returned none none none 30).books 0
      = some { total_count := 1, available_count := 1 } :=
  ⟨by decide, rfl, by decide⟩

/-- Claim C8 amended: the sequence createRequest, transition to approved,
transition to returned leaves the available_count of the book unchanged
provided it was positive when the approval was applied; when it was zero
the sequence instead increases it by one. -/
theorem C8_amended_round_trip (s s1 : LibraryState) (student bid rid : Nat)
    (d1 d2 d3 d4 : Option Nat) (rem rem2 : Option String)
    (today today2 : Nat) (b : Book) (hb : s.books bid = some b)
    (hok : requestBorrow s student bid rid = some s1) :
    (updateRequestStatus (updateRequestStatus s1 rid BorrowStatus.approved
        d1 d2 rem today) rid BorrowStatus.returned d3 d4 rem2 today2).books
        bid
      = some { b with available_count :=
          if 0 < b.available_count then b.available_count
          else b.available_count + 1 } := by
  obtain ⟨hbooks1, hreq1⟩ := requestBorrow_inv s s1 student bid rid hok
  have hb1 : s1.books bid = some b := by rw [hbooks1]; exact hb
  have hfind1 : findReq s1 rid = some
      { id := rid, student_id := student, book_id := bid
        status := BorrowStatus.pending
        issue_date := none, due_date := none, return_date := none
        remarks := none } := by
    unfold findReq
    rw [hreq1]
    exact List.find?_cons_of_pos _ (by simp)
  have hbooks2 := updateRequestStatus_books s1 rid BorrowStatus.approved
    d1 d2 rem today _ hfind1
  have hfind2 := findReq_updateRequestStatus s1 rid BorrowStatus.approved
    d1 d2 rem today _ hfind1
  have hb2 : (updateRequestStatus s1 rid BorrowStatus.approved d1 d2 rem
      today).books bid
      = some { b with available_count :=
          (availEffect (some BorrowStatus.pending) BorrowStatus.approved
            b.available_count) } := by
    rw [hbooks2]
    exact update_book_availability_book (some BorrowStatus.pending)
      BorrowStatus.approved bid s1.books b hb1
  have hbooks3 := updateRequestStatus_books
    (updateRequestStatus s1 rid BorrowStatus.approved d1 d2 rem today) rid
    BorrowStatus.returned d3 d4 rem2 today2 _ hfind2
  have harith : availEffect (some BorrowStatus.approved)
      BorrowStatus.returned
      (availEffect (some BorrowStatus.pending) BorrowStatus.approved
        b.available_count)
      = if 0 < b.available_count then b.available_count
        else b.available_count + 1 := by
    simp [availEffect]
    (try split_ifs) <;> omega
  rw [hbooks3]
  have hfinal := update_book_availability_book (some BorrowStatus.approved)
    BorrowStatus.returned bid
    (updateRequestStatus s1 rid BorrowStatus.approved d1 d2 rem today).books
    { b with available_count :=
      (availEffect (some BorrowStatus.pending) BorrowStatus.approved
        b.available_count) } hb2
  refine hfinal.trans ?_
  show (some { total_count := b.total_count, available_count :=
    (availEffect (some BorrowStatus.approved) BorrowStatus.returned
      (availEffect (some BorrowStatus.pending) BorrowStatus.approved
        b.available_count)) } : Option Book) = _
  rw [harith]

/-- Witness for C8 amended: with one available copy the round trip restores
the count. -/
theorem C8_amended_round_trip_witness :
    (updateRequestStatus (updateRequestStatus cexS1 1 BorrowStatus.approved
        (some 2) (some 16) none 2) 1 BorrowStatus.returned none none none
        30).books 0
      = some { total_count := 1, available_count :=
          if 0 < (1 : Int) then (1 : Int) else (1 : Int) + 1 } :=
  C8_amended_round_trip cexInit cexS1 10 0 1 (some 2) (some 16) none none
    none none 2 30 { total_count := 1, available_count := 1 } (by decide) rfl

/-- Claim C9: the bootstrap-admin handler grants the admin role to the
authenticated caller if and only if zero admin-role rows exist at the time
of the count; when at least one exists it answers with the admins-already-
exist refusal and changes nothing; and when the insert races with another
grant and hits the unique constraint (the row already present at insert
time), the handler reports success while inserting nothing. -/
theorem C9_bootstrap_admin_contract (uid : Nat)
    (tbl ctbl itbl : List UserRole) :
    ((bootstrapAdmin (some uid) tbl tbl).2 ≠ tbl ↔ countAdmins tbl = 0)
    ∧ (countAdmins tbl = 0 →
        bootstrapAdmin (some uid) tbl tbl
          = (BootstrapResponse.success,
              tbl ++ [{ user_id := uid, role := AppRole.admin }]))
    ∧ (0 < countAdmins tbl →
        bootstrapAdmin (some uid) tbl tbl
          = (BootstrapResponse.adminsExist, tbl))
    ∧ (countAdmins ctbl = 0 →
        ({ user_id := uid, role := AppRole.admin } : UserRole) ∈ itbl →
        bootstrapAdmin (some uid) ctbl itbl
          = (BootstrapResponse.success, itbl)) := by
  have hgrant : ∀ t : List UserRole, countAdmins t = 0 →
      bootstrapAdmin (some uid) t t
        = (BootstrapResponse.success,
            t ++ [{ user_id := uid, role := AppRole.admin }]) := by
    intro t ht
    simp only [bootstrapAdmin]
    rw [if_neg (by omega : ¬ 0 < countAdmins t),
      if_neg (by
        rw [countAdmins_zero_any_false t uid ht]
        exact Bool.false_ne_true)]
  have hrefuse : 0 < countAdmins tbl →
      bootstrapAdmin (some uid) tbl tbl
        = (BootstrapResponse.adminsExist, tbl) := by
    intro hpos
    simp only [bootstrapAdmin]
    rw [if_pos hpos]
  refine ⟨⟨?_, ?_⟩, hgrant tbl, hrefuse, ?_⟩
  · intro hne
    by_contra hc
    have hpos : 0 < countAdmins tbl := Nat.pos_of_ne_zero hc
    exact hne (by rw [hrefuse hpos])
  · intro h0
    rw [hgrant tbl h0]
    simp
  · intro hc hm
    simp only [bootstrapAdmin]
    rw [if_neg (by omega : ¬ 0 < countAdmins ctbl)]
    have hany : itbl.any
        (fun r => decide (r.user_id = uid ∧ r.role = AppRole.admin))
        = true := by
      rw [List.any_eq_true]
      exact ⟨_, hm, by simp⟩
    rw [if_pos hany]

/-- Witness for C9 at concrete tables: an empty table lets the caller
bootstrap, one existing admin row triggers the refusal, and a racing
duplicate insert is reported as success with the table unchanged. -/
theorem C9_bootstrap_admin_contract_witness :
    bootstrapAdmin (some 7) [] []
      = (BootstrapResponse.success, [{ user_id := 7, role := AppRole.admin }])
    ∧ bootstrapAdmin (some 7) [{ user_id := 8, role := AppRole.admin }]
        [{ user_id := 8, role := AppRole.admin }]
      = (BootstrapResponse.adminsExist,
          [{ user_id := 8, role := AppRole.admin }])
    ∧ bootstrapAdmin (some 7) [] [{ user_id := 7, role := AppRole.admin }]
      = (BootstrapResponse.success,
          [{ user_id := 7, role := AppRole.admin }]) :=
  ⟨(C9_bootstrap_admin_contract 7 [] [] []).2.1 (by decide),
    (C9_bootstrap_admin_contract 7 [{ user_id := 8, role := AppRole.admin }]
      [] []).2.2.1 (by decide),
    (C9_bootstrap_admin_contract 7 [] []
      [{ user_id := 7, role := AppRole.admin }]).2.2.2 (by decide)
      (by decide)⟩

/-- Claim C10: an authenticated caller holding both the admin and the
student role is refused by the delete-user gate (its single-row role query
does not filter by role, sees two rows and errors, yielding the 403 Admin
access required response), while the manage-admin-role gate, which filters
for the admin role before taking at most one row, accepts the same
caller. -/
theorem C10_dual_role_gate_asymmetry (tbl : List UserRole) (uid : Nat)
    (hnd : tbl.Nodup)
    (hadm : ({ user_id := uid, role := AppRole.admin } : UserRole) ∈ tbl)
    (hstu : ({ user_id := uid, role := AppRole.student } : UserRole) ∈ tbl) :
    deleteUserGate (some uid) tbl = GateResult.forbidden
    ∧ manageAdminGate (some uid) tbl = GateResult.allowed := by
  constructor
  · have hm1 : ({ user_id := uid, role := AppRole.admin } : UserRole)
        ∈ tbl.filter (fun r => decide (r.user_id = uid)) :=
      List.mem_filter.mpr ⟨hadm, by simp⟩
    have hm2 : ({ user_id := uid, role := AppRole.student } : UserRole)
        ∈ tbl.filter (fun r => decide (r.user_id = uid)) :=
      List.mem_filter.mpr ⟨hstu, by simp⟩
    have hsingle := singleRow_eq_none_of_two _ _ _ hm1 hm2 (by simp)
    simp only [deleteUserGate]
    rw [hsingle]
  · have hmf : ({ user_id := uid, role := AppRole.admin } : UserRole)
        ∈ tbl.filter
          (fun r => decide (r.user_id = uid ∧ r.role = AppRole.admin)) :=
      List.mem_filter.mpr ⟨hadm, by simp⟩
    have hall : ∀ x ∈ tbl.filter
        (fun r => decide (r.user_id = uid ∧ r.role = AppRole.admin)),
        x = { user_id := uid, role := AppRole.admin } := by
      intro x hx
      obtain ⟨hxm, hxp⟩ := List.mem_filter.mp hx
      simp only [decide_eq_true_eq] at hxp
      cases x with
      | mk u rl =>
          simp only [UserRole.mk.injEq]
          exact ⟨hxp.1, hxp.2⟩
    have hlen := length_le_one_of_nodup_all_eq _ _ (hnd.filter _) hall
    have hpos : 0 < (tbl.filter
        (fun r => decide (r.user_id = uid ∧ r.role = AppRole.admin))).length :=
      List.length_pos_of_mem hmf
    have hlen1 : (tbl.filter
        (fun r => decide (r.user_id = uid ∧ r.role = AppRole.admin))).length
        = 1 := le_antisymm hlen hpos
    obtain ⟨x, hx⟩ := List.length_eq_one.mp hlen1
    simp only [manageAdminGate]
    rw [hx]
    rfl

/-- Witness for C10 at a concrete two-row table. -/
theorem C10_dual_role_gate_asymmetry_witness :
    deleteUserGate (some 7)
        [{ user_id := 7, role := AppRole.admin },
          { user_id := 7, role := AppRole.student }] = GateResult.forbidden
    ∧ manageAdminGate (some 7)
        [{ user_id := 7, role := AppRole.admin },
          { user_id := 7, role := AppRole.student }] = GateResult.allowed :=
  C10_dual_role_gate_asymmetry
    [{ user_id := 7, role := AppRole.admin },
      { user_id := 7, role := AppRole.student }] 7 (by decide) (by decide)
    (by decide)

end Misbah
